import Mathlib

/-!
Verification development for the repository plot-all-in-ncfile
(files plot_util.py and plot-all-in-ncfile.py).

The script is embedded shallowly:

* a 2-dimensional xray DataArray (the per-timestep slice handled by the
  time loop of the main script) is a record of its two dimension names,
  its rectangular data (outer list along the first dimension, inner
  lists along the second), its named coordinate variables and its
  metadata attributes; values are rationals;
* fallible Python code returns Except PyErr;
* the observable effects of a run (warnings, the colorfile save, the
  image writes) are a list of events.
-/

deriving instance DecidableEq for Except

namespace PlotNC

/-! ## Exact fraction values

The floating-point values of the netCDF data are modelled as exact
fractions.  The type is kept kernel-computable (a fuel-based gcd,
structural recursion only), so that every concrete run of the embedded
script can be checked by `decide`.  Every operation returns a fraction
in lowest terms with a positive denominator, so structural equality is
value equality on the results. -/

/-- Greatest common divisor with explicit fuel (`fuel` at least `b`
suffices, since the second argument strictly decreases). -/
def gcdAux : ℕ → ℕ → ℕ → ℕ
  | 0, a, _ => a
  | _ + 1, a, 0 => a
  | fuel + 1, a, b + 1 => gcdAux fuel (b + 1) (a % (b + 1))

/-- Greatest common divisor, kernel-computable. -/
def natGcd (a b : ℕ) : ℕ := gcdAux (b + 1) a b

/-- An exact fraction: numerator and positive denominator, in lowest
terms by construction. -/
structure Frac where
  num : ℤ
  den : ℤ
  deriving Repr, DecidableEq

/-- Build a normalized fraction from a numerator and a nonzero
denominator. -/
def Frac.mk2 (n d : ℤ) : Frac :=
  let n2 := if d < 0 then -n else n
  let d2 := if d < 0 then -d else d
  let g : ℤ := (natGcd n2.natAbs d2.natAbs : ℕ)
  if g = 0 then { num := 0, den := 1 } else { num := n2 / g, den := d2 / g }

instance (n : ℕ) : OfNat Frac n := ⟨{ num := n, den := 1 }⟩

instance : NatCast Frac := ⟨fun n => { num := n, den := 1 }⟩

instance : IntCast Frac := ⟨fun i => { num := i, den := 1 }⟩

instance : Neg Frac := ⟨fun a => { num := -a.num, den := a.den }⟩

instance : Add Frac := ⟨fun a b => Frac.mk2 (a.num * b.den + b.num * a.den) (a.den * b.den)⟩

instance : Sub Frac := ⟨fun a b => Frac.mk2 (a.num * b.den - b.num * a.den) (a.den * b.den)⟩

instance : Mul Frac := ⟨fun a b => Frac.mk2 (a.num * b.num) (a.den * b.den)⟩

instance : Div Frac :=
  ⟨fun a b => if b.num = 0 then { num := 0, den := 1 }
              else Frac.mk2 (a.num * b.den) (a.den * b.num)⟩

instance : LE Frac := ⟨fun a b => a.num * b.den ≤ b.num * a.den⟩

instance : LT Frac := ⟨fun a b => a.num * b.den < b.num * a.den⟩

instance : DecidableRel (fun a b : Frac => a ≤ b) :=
  fun a b => Int.decLe (a.num * b.den) (b.num * a.den)

instance : DecidableRel (fun a b : Frac => a < b) :=
  fun a b => Int.decLt (a.num * b.den) (b.num * a.den)

instance : Max Frac := ⟨fun a b => if a ≤ b then b else a⟩

instance : Min Frac := ⟨fun a b => if a ≤ b then a else b⟩

/-- Absolute value of a fraction. -/
def Frac.abs (a : Frac) : Frac := if a.num < 0 then -a else a

/-- Floor to an integer (`Int.fdiv` rounds toward negative infinity). -/
def Frac.floor (a : Frac) : ℤ := Int.fdiv a.num a.den

/-- Insert into a sorted list of fractions. -/
def insertFrac (x : Frac) : List Frac → List Frac
  | [] => [x]
  | y :: ys => if x ≤ y then x :: y :: ys else y :: insertFrac x ys

/-- Insertion sort on fractions (`np.sort`, used by np.percentile). -/
def sortFrac : List Frac → List Frac
  | [] => []
  | x :: xs => insertFrac x (sortFrac xs)

/-- Python exceptions raised by the embedded fragments. -/
inductive PyErr where
  | indexError
  | keyError (k : String)
  | valueError (msg : String)
  deriving Repr, DecidableEq

/-- A coordinate variable of a DataArray: its values and its metadata
attributes. -/
structure CoordVar where
  values : List Frac
  attrs : List (String × String)
  deriving Repr, DecidableEq

/-- A 2-dimensional xray DataArray, as handled by the time loop of
plot-all-in-ncfile.py: dimension names `dim0` (outer axis of `data`)
and `dim1` (inner axis), the data values, the coordinate variables
keyed by name, and the metadata attributes. -/
structure DataArray where
  dim0 : String
  dim1 : String
  data : List (List Frac)
  coords : List (String × CoordVar)
  attrs : List (String × String)
  deriving Repr, DecidableEq

/-- The values of the named coordinate variable (empty if absent). -/
def DataArray.coordValues (da : DataArray) (c : String) : List Frac :=
  ((da.coords.lookup c).getD { values := [], attrs := [] }).values

/-- The attributes of the named coordinate variable (empty if absent). -/
def DataArray.coordAttrs (da : DataArray) (c : String) : List (String × String) :=
  ((da.coords.lookup c).getD { values := [], attrs := [] }).attrs

/-- The first element of every row (indexing along the inner axis at
0); none when some row is empty. -/
def mapHead : List (List Frac) → Option (List Frac)
  | [] => some []
  | r :: rest =>
    match r.head?, mapHead rest with
    | some a, some t => some (a :: t)
    | _, _ => none

/-- The last element of every row (indexing along the inner axis at
-1); none when some row is empty. -/
def mapLast : List (List Frac) → Option (List Frac)
  | [] => some []
  | r :: rest =>
    match r.getLast?, mapLast rest with
    | some a, some t => some (a :: t)
    | _, _ => none

/-- Slice of the data at index 0 of the named dimension, flattened to
a list (`data.isel(**{coord: 0})` as used by check_cyclic).  Indexing
an empty axis raises IndexError; an unknown dimension name raises
KeyError. -/
def iselFirst (da : DataArray) (coord : String) : Except PyErr (List Frac) :=
  if coord = da.dim0 then
    match da.data.head? with
    | some r => .ok r
    | none => .error .indexError
  else if coord = da.dim1 then
    match mapHead da.data with
    | some c => .ok c
    | none => .error .indexError
  else .error (.keyError coord)

/-- Slice of the data at the last index of the named dimension, Python
index -1 (`data.isel(**{coord: -1})`). -/
def iselLast (da : DataArray) (coord : String) : Except PyErr (List Frac) :=
  if coord = da.dim0 then
    match da.data.getLast? with
    | some r => .ok r
    | none => .error .indexError
  else if coord = da.dim1 then
    match mapLast da.data with
    | some c => .ok c
    | none => .error .indexError
  else .error (.keyError coord)

/-- plot_util.check_cyclic:
`np.all(data.isel(**{coord: 0}) == data.isel(**{coord: -1}))` --
true iff the slice at the first index of the coordinate axis equals the
slice at the last index, element-wise. -/
def check_cyclic (da : DataArray) (coord : String) : Except PyErr Bool :=
  match iselFirst da coord, iselLast da coord with
  | .ok a, .ok b => .ok (decide (a = b))
  | .error e, _ => .error e
  | _, .error e => .error e

/-- Successive differences of a 1-d array (`np.diff`). -/
def np_diff (xs : List Frac) : List Frac :=
  (xs.zip xs.tail).map fun p => p.2 - p.1

/-- The size of the inner (second) axis of a list-of-rows array. -/
def dataWidth (data : List (List Frac)) : ℕ :=
  match data with
  | [] => 0
  | r :: _ => r.length

/-- cartopy.util.add_cyclic_point along the given axis (0 or 1) of a
2-d array: checks that the coordinate has the same length as the
corresponding data axis and is equally spaced (`np.diff`; reading the
first difference of an empty diff raises IndexError, exactly as
`delta_coord[0]` does for a coordinate with fewer than two samples),
then appends the first sample of the data along the axis and one more
coordinate value equal to the last coordinate plus the spacing. -/
def add_cyclic_point (data : List (List Frac)) (axis : ℕ) (coord : List Frac) :
    Except PyErr (List (List Frac) × List Frac) :=
  if coord.length ≠ (if axis = 0 then data.length else dataWidth data) then
    .error (.valueError "The length of the coordinate does not match the size of the corresponding dimension of the data array")
  else
    match np_diff coord with
    | [] => .error .indexError
    | d0 :: rest =>
      if (d0 :: rest).all fun d => decide (d = d0) then
        .ok ((if axis = 0 then data ++ data.take 1
              else data.map fun r => r ++ r.take 1),
             coord ++ [coord.getLastD 0 + d0])
      else .error (.valueError "The coordinate must be equally spaced")

/-- The axis position of the named dimension (`da.dims.index(coord)`;
a ValueError if the name is not a dimension, as tuple.index raises). -/
def axisOf (da : DataArray) (coord : String) : Except PyErr ℕ :=
  if coord = da.dim0 then .ok 0
  else if coord = da.dim1 then .ok 1
  else .error (.valueError "x not in tuple")

/-- Replace the value stored under key `k` of a coordinate mapping
(`new_coords[coord] = cyclic_coord` on a dict). -/
def updateCoord (coords : List (String × CoordVar)) (k : String) (cv : CoordVar) :
    List (String × CoordVar) :=
  coords.map fun p => if p.1 = k then (p.1, cv) else p

/-- plot_util.cyclic_dataarray: look up the axis of the named
coordinate dimension, run add_cyclic_point on the data and the
coordinate values, and rebuild the DataArray with the extended data and
coordinate; the dimension names, the other coordinates, the metadata
attributes of the array and of every coordinate are carried over. -/
def cyclic_dataarray (da : DataArray) (coord : String) : Except PyErr DataArray :=
  match axisOf da coord with
  | .error e => .error e
  | .ok axis =>
    match da.coords.lookup coord with
    | none => .error (.keyError coord)
    | some cv =>
      match add_cyclic_point da.data axis cv.values with
      | .error e => .error e
      | .ok r =>
        .ok { da with data := r.1,
                      coords := updateCoord da.coords coord { cv with values := r.2 } }

/-- Lines 143-144 of plot-all-in-ncfile.py:
`if not check_cyclic(plot_data, coord=lon): plot_data = cyclic_dataarray(plot_data, coord=lon)`. -/
def correct_cyclic (da : DataArray) (coord : String) : Except PyErr DataArray :=
  match check_cyclic da coord with
  | .error e => .error e
  | .ok true => .ok da
  | .ok false => cyclic_dataarray da coord

/-! ## Colormap parameter inference (xarray.plot.utils) -/

/-- Minimum of a list of values (`calc_data.min()`); 0 on the empty
list, which the script never reaches. -/
def listMin (xs : List Frac) : Frac :=
  match xs with
  | [] => 0
  | y :: ys => ys.foldl min y

/-- Maximum of a list of values (`calc_data.max()`). -/
def listMax (xs : List Frac) : Frac :=
  match xs with
  | [] => 0
  | y :: ys => ys.foldl max y

/-- Model of `np.percentile` with the default linear interpolation: sort the
data, take the fractional rank `q / 100 * (n - 1)` and interpolate
between the neighbouring order statistics. -/
def npPercentile (xs : List Frac) (q : Frac) : Frac :=
  match sortFrac xs with
  | [] => 0
  | s =>
    let n := s.length
    let rank := q / 100 * ((n : Frac) - 1)
    let lo := rank.floor.toNat
    let frac := rank - (rank.floor : Frac)
    let a := s.getD lo 0
    let b := s.getD (lo + 1) a
    a + frac * (b - a)

/-- Model of `np.linspace`: `n` evenly spaced samples from `a` to `b`. -/
def npLinspace (a b : Frac) (n : ℕ) : List Frac :=
  if n = 0 then []
  else if n = 1 then [a]
  else (List.range n).map fun i => a + (b - a) * (i : Frac) / ((n : Frac) - 1)

/-- xarray.plot.utils._determine_extend: compare the data extrema with
the chosen bounds. -/
def determine_extend (calcData : List Frac) (vmin vmax : Frac) : String :=
  let extendMin := listMin calcData < vmin
  let extendMax := vmax < listMax calcData
  if extendMin ∧ extendMax then "both"
  else if extendMin then "min"
  else if extendMax then "max"
  else "neither"

/-- The Colormap Parameters record returned by
xarray.plot.utils._determine_cmap_params: bounds, palette name, extend
behaviour and optional discrete levels. -/
structure CmapParams where
  vmin : Frac
  vmax : Frac
  cmap : String
  extendArg : String
  levels : Option (List Frac)
  deriving Repr, DecidableEq

/-- Model of xarray.plot.utils._determine_cmap_params restricted to the
arguments this script varies (`levels`, `robust`, `extend`); `vmin`,
`vmax`, `center` and `cmap` are never supplied and follow the library
defaults.  Bounds come from the data extrema, or from the 2nd/98th
percentiles when `robust`; data spanning zero get a symmetric divergent
palette; an integral `levels` is expanded to an evenly spaced level
grid whose endpoints replace the bounds; an unspecified `extend` is
computed from the data extrema against the bounds. -/
def determine_cmap_params (plotData : List Frac) (levels : Option ℕ)
    (robust : Bool) (extend : Option String) : CmapParams :=
  let calcData := plotData
  let vmin := if robust then npPercentile calcData 2 else listMin calcData
  let vmax := if robust then npPercentile calcData 98 else listMax calcData
  let divergent := vmin < 0 ∧ 0 < vmax
  let vlim := max (Frac.abs vmin) (Frac.abs vmax)
  let vmin := if divergent then -vlim else vmin
  let vmax := if divergent then vlim else vmax
  let cmap := if divergent then "RdBu_r" else "viridis"
  let lv := levels.map fun n => npLinspace vmin vmax n
  let vmin := match lv with
    | some (a :: _) => a
    | _ => vmin
  let vmax := match lv with
    | some (a :: t) => (a :: t).getLastD a
    | _ => vmax
  let ext := match extend with
    | some e => e
    | none => determine_extend calcData vmin vmax
  { vmin := vmin, vmax := vmax, cmap := cmap, extendArg := ext, levels := lv }

/-! ## The orchestrator (plot-all-in-ncfile.py, `__main__`) -/

/-- The colormap mapping: variable name to Colormap Parameters, in
dict insertion order. -/
abbrev ColorData := List (String × CmapParams)

/-- The keys of a colormap mapping. -/
def dictKeys (m : ColorData) : List String := m.map Prod.fst

/-- Assignment `m[k] = x` on a Python dict: replace the entry if the key is
present, otherwise append it, preserving insertion order. -/
def dictSet (m : ColorData) (k : String) (x : CmapParams) : ColorData :=
  if k ∈ dictKeys m then m.map fun p => if p.1 = k then (k, x) else p
  else m ++ [(k, x)]

/-- One variable of the opened dataset: its dimension names, its full
data across all timesteps (`dataset[v].data`, flattened), its per-time
slices (`var_data.groupby(time)`, in time order) and its attributes. -/
structure VarData where
  dims : List String
  fullData : List Frac
  slices : List ((ℕ × ℕ × ℕ × ℕ × ℕ) × DataArray)
  attrs : List (String × String)
  deriving Repr, DecidableEq

/-- A timestamp (month, day, year, hour, minute). -/
abbrev Timestamp := ℕ × ℕ × ℕ × ℕ × ℕ

instance instDecEqSlicePair : DecidableEq (Timestamp × DataArray) := inferInstance

instance instDecEqSliceList : DecidableEq (List (Timestamp × DataArray)) :=
  fun a b => List.hasDecEq a b

/-- The opened dataset: its dimension names, its coordinate names, and
its variables (coordinate variables included) keyed by name. -/
structure Dataset where
  dims : List String
  coords : List String
  vars : List (String × VarData)
  deriving Repr, DecidableEq

/-- The command line of the script: the netCDF file, the optional
colorfile, and the sample flag. -/
structure Config where
  nc_file : String
  colorfile : Option String
  sample : Bool
  deriving Repr, DecidableEq

/-- The readable files: colorfile name to pickled colormap mapping. -/
abbrev FileSystem := List (String × ColorData)

/-- An observable effect of a run: a warning (`warnings.warn`), the
colorfile save (`pickle.dump` to the named file) or an image write
(`plt.savefig` to the named file). -/
inductive Event where
  | warnMissingColor (v : String)
  | warnReinferColor
  | warnLabeling
  | saveCache (fn : String) (contents : ColorData)
  | saveImage (fn : String)
  deriving Repr, DecidableEq

/-- Is the event a warning? -/
def isWarnB : Event → Bool
  | .warnMissingColor _ => true
  | .warnReinferColor => true
  | .warnLabeling => true
  | _ => false

/-- Is the event the colorfile save? -/
def isSaveCacheB : Event → Bool
  | .saveCache _ _ => true
  | _ => false

/-- Is the event an image write? -/
def isSaveImageB : Event → Bool
  | .saveImage _ => true
  | _ => false

/-- Rename a single name (`{old: new}` applied to one string). -/
def renameStr (old new s : String) : String :=
  if s = old then new else s

/-- Model of `dataset.rename({old: new}, inplace=True)`: the dimension names,
the coordinate names, the variable names, each variable dimension list
and the dimension names and coordinate keys of every slice are
renamed. -/
def Dataset.rename (ds : Dataset) (old new : String) : Dataset :=
  { dims := ds.dims.map (renameStr old new),
    coords := ds.coords.map (renameStr old new),
    vars := ds.vars.map fun p =>
      (renameStr old new p.1,
       { p.2 with
         dims := p.2.dims.map (renameStr old new),
         slices := p.2.slices.map fun s =>
           (s.1, { s.2 with
                   dim0 := renameStr old new s.2.dim0,
                   dim1 := renameStr old new s.2.dim1,
                   coords := s.2.coords.map fun c => (renameStr old new c.1, c.2) }) }) }

/-- Membership test `name in dataset`: membership among the dataset variables
(coordinate variables included). -/
def datasetContains (ds : Dataset) (name : String) : Bool :=
  decide (name ∈ ds.vars.map Prod.fst)

/-- Lines 67-75: coerce the dimension names, renaming a longitude
variable to lon and a latitude variable to lat when present. -/
def coerceDims (ds : Dataset) : Dataset :=
  let ds1 := if datasetContains ds "longitude" then ds.rename "longitude" "lon" else ds
  if datasetContains ds1 "latitude" then ds1.rename "latitude" "lat" else ds1

/-- The variables iterated by the two colorfile loops:
`for v in dataset.variables: if v in dataset.dims: continue`. -/
def nonDimVars (ds : Dataset) : List (String × VarData) :=
  ds.vars.filter fun p => decide (p.1 ∉ ds.dims)

/-- Lines 88-93, the colorfile fallback loop: for each non-dimension
variable missing from the loaded mapping, warn and infer its colormap
parameters with the library defaults
(`color_data[v] = _determine_cmap_params(dataset[v].data)`). -/
def fallbackLoop (cd : ColorData) : List (String × VarData) → ColorData × List Event
  | [] => (cd, [])
  | (v, vd) :: rest =>
    if v ∈ dictKeys cd then fallbackLoop cd rest
    else
      let cd2 := dictSet cd v (determine_cmap_params vd.fullData none false none)
      let r := fallbackLoop cd2 rest
      (r.1, Event.warnMissingColor v :: r.2)

/-- Lines 97-104, batch inference: for each non-dimension variable,
`color_data[v] = _determine_cmap_params(dataset[v].data, levels=21, robust=True, extend=both)`. -/
def batchLoop (cd : ColorData) : List (String × VarData) → ColorData
  | [] => cd
  | (v, vd) :: rest =>
    batchLoop (dictSet cd v (determine_cmap_params vd.fullData (some 21) true (some "both"))) rest

/-- Lines 79-104: resolve the colormap mapping.  With a colorfile
argument, load it (exit with a diagnostic naming the file when it
cannot be opened) and run the fallback loop; otherwise infer a fresh
mapping in batch mode. -/
def resolveColors (ds : Dataset) (cfg : Config) (fs : FileSystem) :
    Except String (ColorData × List Event) :=
  match cfg.colorfile with
  | some cf =>
    match fs.lookup cf with
    | none => .error ("Could not open colorfile " ++ cf)
    | some loaded => .ok (fallbackLoop loaded (nonDimVars ds))
  | none => .ok (batchLoop [] (nonDimVars ds), [])

/-- Model of `os.path.splitext(fn)[0]`: the path without its extension; the
extension is everything from the last dot of the final path component,
unless that component has only leading dots. -/
def splitextBase (fn : String) : String :=
  let parts := fn.splitOn "/"
  let b := (parts.getLastD "").toList
  let lead := b.takeWhile fun c => c = Char.ofNat 46
  let rest := b.dropWhile fun c => c = Char.ofNat 46
  let root :=
    if rest.contains (Char.ofNat 46) then
      lead ++ rest.take (rest.length - 1 - (rest.reverse.indexOf (Char.ofNat 46)))
    else b
  String.join ((parts.dropLast).map fun p => p ++ "/") ++ String.mk root

/-- strftime on the filename format `%m%d%Y_%H%MZ`. -/
def pad2 (n : ℕ) : String :=
  if n < 10 then "0" ++ toString n else toString n

/-- Zero-pad a year to four digits (`%Y`). -/
def pad4 (n : ℕ) : String :=
  if n < 10 then "000" ++ toString n
  else if n < 100 then "00" ++ toString n
  else if n < 1000 then "0" ++ toString n
  else toString n

/-- The timestamp part of an image file name, `MMDDYYYY_HHMMZ`. -/
def fn_ts_str (t : Timestamp) : String :=
  pad2 t.1 ++ pad2 t.2.1 ++ pad4 t.2.2.1 ++ "_" ++ pad2 t.2.2.2.1 ++ pad2 t.2.2.2.2 ++ "Z"

/-- The per-method extra plotting arguments of plot_util. -/
def PLOTTYPE_ARGS : List (String × List (String × String)) :=
  [("pcolormesh", [("linewidth", "0")]),
   ("pcolor", [("linewidth", "0")]),
   ("contourf", [])]

/-- plot_util.geo_plot, reduced to its observable control flow: an
unrecognised method name raises a ValueError before anything is drawn;
a passed-in axis must be a GeoAxes; when the colormap keyword
arguments carry no vmin the colormap parameters are re-inferred with a
warning.  The drawing calls themselves produce no observable value. -/
def geo_plot (da : DataArray) (axGeo : Bool) (method : String)
    (kwargsVmin : Option Frac) : Except PyErr (List Event) :=
  if (PLOTTYPE_ARGS.lookup method).isNone then
    .error (.valueError ("Do not know how to deal with " ++ method ++ " method"))
  else if ¬ axGeo then
    .error (.valueError "Expected ax to be a GeoAxes instance")
  else
    .ok (if kwargsVmin.isNone then [Event.warnReinferColor] else [])

/-- One iteration of the time loop (lines 142-171): cyclic check and
correction, geo_plot on the created GeoAxes with the contourf default
and the resolved colormap keywords (which always carry vmin), then the
image write `<variable>_<MMDDYYYY_HHMMZ>.png`. -/
def renderSlice (v : String) (params : CmapParams) (s : Timestamp × DataArray) :
    Except PyErr (List Event) :=
  match correct_cyclic s.2 "lon" with
  | .error e => .error e
  | .ok pd =>
    match geo_plot pd true "contourf" (some params.vmin) with
    | .error e => .error e
    | .ok warns => .ok (warns ++ [Event.saveImage (v ++ "_" ++ fn_ts_str s.1 ++ ".png")])

/-- The time loop over the slices of one variable. -/
def renderSlices (v : String) (params : CmapParams) :
    List (Timestamp × DataArray) → Except PyErr (List Event)
  | [] => Except.ok []
  | s :: rest =>
    match renderSlice v params s with
    | .error e => .error e
    | .ok evs =>
      match renderSlices v params rest with
      | .error e => .error e
      | .ok rest2 => .ok (evs ++ rest2)

/-- The time loop of one variable, honouring the sample flag
(`if args.sample: break` after the first timestep). -/
def plotVar (v : String) (vd : VarData) (params : CmapParams) (sample : Bool) :
    Except PyErr (List Event) :=
  renderSlices v params (if sample then vd.slices.take 1 else vd.slices)

/-- The variables iterated by the plotting loop (line 117):
`if (v in dataset.dims) or (v in dataset.coords): continue`. -/
def plottableVars (ds : Dataset) : List (String × VarData) :=
  ds.vars.filter fun p => decide (p.1 ∉ ds.dims ∧ p.1 ∉ ds.coords)

/-- The plotting loop over a list of variables:
`var_cmap_kwargs = color_data[v]` then the time loop. -/
def plotVars (cd : ColorData) (sample : Bool) :
    List (String × VarData) → Except PyErr (List Event)
  | [] => Except.ok []
  | (v, vd) :: rest =>
    match cd.lookup v with
    | none => .error (.keyError v)
    | some params =>
      match plotVar v vd params sample with
      | .error e => .error e
      | .ok evs =>
        match plotVars cd sample rest with
        | .error e => .error e
        | .ok rest2 => .ok (evs ++ rest2)

/-- Lines 116-176: the whole plotting loop. -/
def plotAll (ds : Dataset) (cd : ColorData) (sample : Bool) : Except PyErr (List Event) :=
  plotVars cd sample (plottableVars ds)

/-- A printable rendering of an uncaught exception. -/
def pyErrMsg : PyErr → String
  | .indexError => "IndexError"
  | .keyError k => "KeyError: " ++ k
  | .valueError m => "ValueError: " ++ m

/-- The outcome of a run: the process exit code, the fatal diagnostic
message if any, and the observable events in order. -/
structure RunResult where
  exitCode : ℕ
  diagnostic : Option String
  events : List Event
  deriving Repr, DecidableEq

/-- The `__main__` body after the dataset is opened and coerced:
resolve the colormap mapping (exiting with status 1 and a diagnostic
when an explicitly requested colorfile cannot be opened), save the
colorfile `basename + .cf` with the resolved mapping, then run the
plotting loop; an uncaught exception there terminates the run with a
nonzero status. -/
def mainRunOn (cfg : Config) (ds : Dataset) (fs : FileSystem) : RunResult :=
  match resolveColors ds cfg fs with
  | .error msg => { exitCode := 1, diagnostic := some msg, events := [] }
  | .ok (cd, evs1) =>
    match plotAll ds cd cfg.sample with
    | .error e =>
      { exitCode := 1, diagnostic := some (pyErrMsg e),
        events := evs1 ++ [Event.saveCache (splitextBase cfg.nc_file ++ ".cf") cd] }
    | .ok evs2 =>
      { exitCode := 0, diagnostic := none,
        events := evs1 ++ [Event.saveCache (splitextBase cfg.nc_file ++ ".cf") cd] ++ evs2 }

/-- The `__main__` body on an opened dataset: the dimension-name
coercion of lines 67-75 followed by the rest of the run. -/
def mainRun (cfg : Config) (ds : Dataset) (fs : FileSystem) : RunResult :=
  mainRunOn cfg (coerceDims ds) fs

/-! ## Supporting lemmas for the Cyclic-Point Corrector -/

theorem check_cyclic_ok_of (da : DataArray) (coord : String) (s : List Frac)
    (h1 : iselFirst da coord = .ok s) (h2 : iselLast da coord = .ok s) :
    check_cyclic da coord = .ok true := by
  simp [check_cyclic, h1, h2]

theorem correct_cyclic_of_true (da : DataArray) (coord : String)
    (h : check_cyclic da coord = .ok true) :
    correct_cyclic da coord = .ok da := by
  simp [correct_cyclic, h]

theorem np_diff_len (xs : List Frac) : (np_diff xs).length = xs.length - 1 := by
  cases xs with
  | nil => simp [np_diff]
  | cons a t => simp [np_diff]

theorem mapHead_append_take (l : List (List Frac)) (h : ∀ r ∈ l, r ≠ []) :
    mapHead (l.map fun r => r ++ r.take 1) = some (l.map fun r => r.headD 0) := by
  induction l with
  | nil => simp [mapHead]
  | cons r rest ih =>
    obtain ⟨a, t, rfl⟩ := List.exists_cons_of_ne_nil (h r (by simp))
    have hrec := ih fun x hx => h x (List.mem_cons_of_mem _ hx)
    simp [mapHead, hrec]

theorem getLast_cons_append_single {α : Type} (a : α) (t : List α) :
    (a :: (t ++ [a])).getLast? = some a := by
  rw [← List.cons_append]
  exact List.getLast?_concat _

theorem mapLast_append_take (l : List (List Frac)) (h : ∀ r ∈ l, r ≠ []) :
    mapLast (l.map fun r => r ++ r.take 1) = some (l.map fun r => r.headD 0) := by
  induction l with
  | nil => simp [mapLast]
  | cons r rest ih =>
    obtain ⟨a, t, rfl⟩ := List.exists_cons_of_ne_nil (h r (by simp))
    have hrec := ih fun x hx => h x (List.mem_cons_of_mem _ hx)
    simp [mapLast, hrec, getLast_cons_append_single]

theorem mapHead_mapLast_single (l : List (List Frac)) (h : ∀ r ∈ l, r.length = 1) :
    mapHead l = some (l.map fun r => r.headD 0) ∧
    mapLast l = some (l.map fun r => r.headD 0) := by
  induction l with
  | nil => simp [mapHead, mapLast]
  | cons r rest ih =>
    obtain ⟨a, rfl⟩ := List.length_eq_one.mp (h r (by simp))
    have hrec := ih fun x hx => h x (List.mem_cons_of_mem _ hx)
    simp [mapHead, mapLast, hrec.1, hrec.2]

theorem mapHead_none (l : List (List Frac)) (h : [] ∈ l) : mapHead l = none := by
  induction l with
  | nil => simp at h
  | cons r rest ih =>
    rcases List.mem_cons.mp h with h | h
    · simp [mapHead, h.symm]
    · cases hr : r.head? <;> simp [mapHead, hr, ih h]

theorem add_cyclic_point_ok (data : List (List Frac)) (axis : ℕ) (coord : List Frac)
    (r : List (List Frac) × List Frac)
    (h : add_cyclic_point data axis coord = .ok r) :
    coord.length = (if axis = 0 then data.length else dataWidth data) ∧
    2 ≤ coord.length ∧
    ∃ d0, (np_diff coord).head? = some d0 ∧
      r.2 = coord ++ [coord.getLastD 0 + d0] ∧
      r.1 = (if axis = 0 then data ++ data.take 1
             else data.map fun s => s ++ s.take 1) := by
  by_cases ha : axis = 0 <;>
    [simp only [add_cyclic_point, ha, reduceIte] at h ⊢;
     simp only [add_cyclic_point, if_neg ha] at h ⊢] <;>
  · split at h
    · simp at h
    · rename_i hlen
      rw [not_not] at hlen
      refine ⟨hlen, ?_⟩
      split at h
      · simp at h
      · rename_i d0 rest hd
        split at h
        · have hset := Except.ok.inj h
          have hlen2 : 2 ≤ coord.length := by
            have hnp := np_diff_len coord
            rw [hd] at hnp
            simp at hnp
            omega
          exact ⟨hlen2, d0, by simp [hd], by rw [← hset], by rw [← hset]⟩
        · simp at h

theorem axisOf_ok (da : DataArray) (coord : String) (axis : ℕ)
    (h : axisOf da coord = .ok axis) :
    (axis = 0 ∧ coord = da.dim0) ∨ (axis = 1 ∧ coord ≠ da.dim0 ∧ coord = da.dim1) := by
  unfold axisOf at h
  by_cases h0 : coord = da.dim0
  · rw [if_pos h0] at h
    exact Or.inl ⟨(Except.ok.inj h).symm, h0⟩
  · rw [if_neg h0] at h
    by_cases h1 : coord = da.dim1
    · rw [if_pos h1] at h
      exact Or.inr ⟨(Except.ok.inj h).symm, h0, h1⟩
    · rw [if_neg h1] at h
      exact absurd h (by simp)

theorem cyclic_dataarray_ok (da da2 : DataArray) (coord : String)
    (h : cyclic_dataarray da coord = .ok da2) :
    ∃ axis cv r, axisOf da coord = .ok axis ∧
      da.coords.lookup coord = some cv ∧
      add_cyclic_point da.data axis cv.values = .ok r ∧
      da2 = { da with
              data := r.1,
              coords := updateCoord da.coords coord { cv with values := r.2 } } := by
  unfold cyclic_dataarray at h
  split at h
  · exact absurd h (by simp)
  · rename_i axis haxis
    split at h
    · exact absurd h (by simp)
    · rename_i cv hcv
      split at h
      · exact absurd h (by simp)
      · rename_i r hacp
        exact ⟨axis, cv, r, haxis, hcv, hacp, (Except.ok.inj h).symm⟩

theorem check_after_cyclic (da da2 : DataArray) (coord : String)
    (hrect : ∀ row ∈ da.data, row.length = dataWidth da.data)
    (hc : cyclic_dataarray da coord = .ok da2) :
    check_cyclic da2 coord = .ok true := by
  obtain ⟨axis, cv, r, haxis, hcv, hacp, hda2⟩ := cyclic_dataarray_ok _ _ _ hc
  obtain ⟨hlen, h2, d0, hd0, hr2, hr1⟩ := add_cyclic_point_ok _ _ _ _ hacp
  rcases axisOf_ok _ _ _ haxis with ⟨ha, h0⟩ | ⟨ha, h0, h1⟩
  · subst ha
    simp only [reduceIte] at hlen hr1
    obtain ⟨hd, tl, hdata⟩ : ∃ hd tl, da.data = hd :: tl := by
      cases hdt : da.data with
      | nil =>
        rw [hdt] at hlen
        simp only [List.length_nil] at hlen
        omega
      | cons x xs => exact ⟨x, xs, rfl⟩
    apply check_cyclic_ok_of da2 coord hd
    · rw [hda2]
      simp [iselFirst, h0, hr1, hdata]
    · rw [hda2]
      simp [iselLast, h0, hr1, hdata, getLast_cons_append_single]
  · subst ha
    simp only [if_neg (by omega : ¬ (1 : ℕ) = 0)] at hlen hr1
    rw [h1] at h0
    have hne : ∀ row ∈ da.data, row ≠ [] := by
      intro row hrow hempty
      have hlr := hrect row hrow
      rw [hempty] at hlr
      rw [← hlen] at hlr
      simp at hlr
      omega
    apply check_cyclic_ok_of da2 coord (da.data.map fun s => s.headD 0)
    · rw [hda2]
      simp [iselFirst, h1, h0, hr1, mapHead_append_take da.data hne]
    · rw [hda2]
      simp [iselLast, h1, h0, hr1, mapLast_append_take da.data hne]

theorem correct_cyclic_idem (da da2 : DataArray) (coord : String)
    (hrect : ∀ row ∈ da.data, row.length = dataWidth da.data)
    (hc : correct_cyclic da coord = .ok da2) :
    check_cyclic da2 coord = .ok true ∧ correct_cyclic da2 coord = .ok da2 := by
  unfold correct_cyclic at hc
  cases hb : check_cyclic da coord with
  | error e => rw [hb] at hc; exact absurd hc (by simp)
  | ok b =>
    rw [hb] at hc
    cases b with
    | true =>
      simp at hc
      subst hc
      exact ⟨hb, correct_cyclic_of_true _ _ hb⟩
    | false =>
      simp at hc
      have hcy := check_after_cyclic da da2 coord hrect hc
      exact ⟨hcy, correct_cyclic_of_true _ _ hcy⟩

/-- Claim C1: a slice whose value at the first longitude index equals
its value at the last longitude index element-wise is returned
unchanged by the cyclic correction of the time loop, and the
correction is idempotent: any slice it returns is detected as cyclic
by check_cyclic, so a second application skips the correction and
returns it unchanged. -/
theorem claim_C1 (da da2 : DataArray) (coord : String)
    (hrect : ∀ row ∈ da.data, row.length = dataWidth da.data) :
    (∀ s, iselFirst da coord = .ok s → iselLast da coord = .ok s →
        correct_cyclic da coord = .ok da) ∧
    (correct_cyclic da coord = .ok da2 →
        check_cyclic da2 coord = .ok true ∧ correct_cyclic da2 coord = .ok da2) := by
  constructor
  · intro s h1 h2
    exact correct_cyclic_of_true _ _ (check_cyclic_ok_of _ _ _ h1 h2)
  · intro hc
    exact correct_cyclic_idem _ _ _ hrect hc

/-- An already-cyclic concrete slice. -/
def daCyc : DataArray :=
  { dim0 := "lat", dim1 := "lon", data := [[1, 2, 1], [4, 5, 4]],
    coords := [("lon", { values := [0, 1, 2], attrs := [] }),
               ("lat", { values := [7, 8], attrs := [] })],
    attrs := [] }

theorem claim_C1_witness : correct_cyclic daCyc "lon" = .ok daCyc :=
  (claim_C1 daCyc daCyc "lon" (by decide)).1 [1, 4] (by decide) (by decide)

theorem lookup_updateCoord_self (l : List (String × CoordVar)) (k : String)
    (cv old : CoordVar) (h : l.lookup k = some old) :
    (updateCoord l k cv).lookup k = some cv := by
  induction l with
  | nil => simp [List.lookup] at h
  | cons p t ih =>
    obtain ⟨k1, v1⟩ := p
    by_cases hk : k1 = k
    · subst hk
      have hhead : (if (k1, v1).1 = k1 then ((k1, v1).1, cv) else (k1, v1)) = (k1, cv) :=
        if_pos rfl
      simp only [updateCoord, List.map_cons, hhead]
      simp [List.lookup]
    · have hne : (k == k1) = false := by
        simp
        exact fun hh => hk hh.symm
      simp only [updateCoord, List.map_cons, if_neg hk] at *
      simp only [List.lookup, hne] at h ⊢
      exact ih h

theorem lookup_updateCoord_ne (l : List (String × CoordVar)) (k c : String)
    (cv : CoordVar) (hne : c ≠ k) :
    (updateCoord l k cv).lookup c = l.lookup c := by
  induction l with
  | nil => simp [updateCoord]
  | cons p t ih =>
    obtain ⟨k1, v1⟩ := p
    by_cases hk : k1 = k
    · subst hk
      have hcne : (c == k1) = false := by
        simp
        exact hne
      simp only [updateCoord, List.map_cons, if_pos rfl] at *
      simp only [List.lookup, hcne] at *
      exact ih
    · simp only [updateCoord, List.map_cons, if_neg hk] at *
      cases hck : (c == k1) <;> simp only [List.lookup, hck] <;> simp [ih]

/-- Claim C2 (amended): for a non-cyclic slice the correction extends
the longitude axis by exactly one sample; the appended coordinate is
the last coordinate plus the grid spacing (the first np.diff value),
not the first coordinate plus 360; the appended data value is the
first-longitude value of every row; the dimension names, the array
attributes, the longitude coordinate attributes and every other
coordinate are unchanged. -/
theorem claim_C2 (da da2 : DataArray) (d0 : Frac)
    (hnc : check_cyclic da "lon" = .ok false)
    (hcd : cyclic_dataarray da "lon" = .ok da2)
    (hd : (np_diff (da.coordValues "lon")).head? = some d0) :
    (da2.coordValues "lon").length = (da.coordValues "lon").length + 1 ∧
    da2.coordValues "lon" =
      da.coordValues "lon" ++ [(da.coordValues "lon").getLastD 0 + d0] ∧
    (da.dim0 ≠ "lon" → da.dim1 = "lon" →
        da2.data = da.data.map fun r => r ++ r.take 1) ∧
    (da.dim0 = "lon" → da2.data = da.data ++ da.data.take 1) ∧
    da2.dim0 = da.dim0 ∧ da2.dim1 = da.dim1 ∧ da2.attrs = da.attrs ∧
    da2.coordAttrs "lon" = da.coordAttrs "lon" ∧
    (∀ c, c ≠ "lon" → da2.coords.lookup c = da.coords.lookup c) := by
  obtain ⟨axis, cv, r, haxis, hcv, hacp, hda2⟩ := cyclic_dataarray_ok _ _ _ hcd
  obtain ⟨hlen, h2, d1, hd1, hr2, hr1⟩ := add_cyclic_point_ok _ _ _ _ hacp
  have hcvals : da.coordValues "lon" = cv.values := by
    simp [DataArray.coordValues, hcv]
  have hcattrs : da.coordAttrs "lon" = cv.attrs := by
    simp [DataArray.coordAttrs, hcv]
  have hlk2 : da2.coords.lookup "lon" = some { cv with values := r.2 } := by
    rw [hda2]
    exact lookup_updateCoord_self _ _ _ _ hcv
  have hcvals2 : da2.coordValues "lon" = r.2 := by
    simp [DataArray.coordValues, hlk2]
  have hd0 : d1 = d0 := by
    rw [hcvals, hd1] at hd
    exact Option.some.inj hd
  subst hd0
  refine ⟨?_, ?_, ?_, ?_, ?_, ?_, ?_, ?_, ?_⟩
  · rw [hcvals2, hcvals, hr2]
    simp
  · rw [hcvals2, hcvals, hr2]
  · intro hne0 hdim1
    rcases axisOf_ok _ _ _ haxis with ⟨ha, h0⟩ | ⟨ha, h0, h1⟩
    · exact absurd h0.symm hne0
    · subst ha
      rw [hda2]
      simpa using hr1
  · intro hdim0
    rcases axisOf_ok _ _ _ haxis with ⟨ha, h0⟩ | ⟨ha, h0, h1⟩
    · subst ha
      rw [hda2]
      simpa using hr1
    · exact absurd hdim0.symm h0
  · rw [hda2]
  · rw [hda2]
  · rw [hda2]
  · simp [DataArray.coordAttrs, hlk2, hcv]
  · intro c hc
    rw [hda2]
    exact lookup_updateCoord_ne _ _ _ _ hc

/-- A non-cyclic concrete slice with longitude samples at 0 and 1. -/
def daNC : DataArray :=
  { dim0 := "lat", dim1 := "lon", data := [[1, 2]],
    coords := [("lon", { values := [0, 1], attrs := [("units", "degrees_east")] }),
               ("lat", { values := [7], attrs := [] })],
    attrs := [("long_name", "x")] }

/-- The correction of daNC as the code computes it. -/
def daNC2 : DataArray :=
  { dim0 := "lat", dim1 := "lon", data := [[1, 2, 1]],
    coords := [("lon", { values := [0, 1, 2], attrs := [("units", "degrees_east")] }),
               ("lat", { values := [7], attrs := [] })],
    attrs := [("long_name", "x")] }

/-- Claim C2 counterexample: daNC is non-cyclic, and the corrector
appends the longitude coordinate 2 (the last coordinate plus the
spacing), which differs from the first coordinate plus 360. -/
theorem claim_C2_counterexample :
    check_cyclic daNC "lon" = .ok false ∧
    cyclic_dataarray daNC "lon" = .ok daNC2 ∧
    (daNC2.coordValues "lon").getLast? = some 2 ∧
    (daNC.coordValues "lon").head? = some 0 ∧ (2 : Frac) ≠ 0 + 360 :=
  ⟨by decide, by decide, by decide, by decide, by decide⟩

theorem claim_C2_witness :
    (daNC2.coordValues "lon").length = (daNC.coordValues "lon").length + 1 :=
  (claim_C2 daNC daNC2 1 (by decide) (by decide) (by decide)).1

theorem check_cyclic_err1 (da : DataArray) (coord : String) (e : PyErr)
    (h : iselFirst da coord = .error e) :
    check_cyclic da coord = .error e := by
  cases h2 : iselLast da coord <;> simp [check_cyclic, h, h2]

theorem correct_cyclic_err (da : DataArray) (coord : String) (e : PyErr)
    (h : check_cyclic da coord = .error e) :
    correct_cyclic da coord = .error e := by
  simp [correct_cyclic, h]

/-- Claim C3 (amended): the corrector does not fail on a longitude axis
with fewer than two samples: with exactly one sample per row the
equality check trivially succeeds and the slice passes through
unchanged with no error; with zero samples the indexing raises a bare
IndexError, not a dedicated invalid-input error. -/
theorem claim_C3 (da : DataArray) (h0 : da.dim0 ≠ "lon") (h1 : da.dim1 = "lon") :
    ((∀ row ∈ da.data, row.length = 1) → correct_cyclic da "lon" = .ok da) ∧
    ([] ∈ da.data → correct_cyclic da "lon" = .error .indexError) := by
  have h0s : ¬ ("lon" : String) = da.dim0 := fun hh => h0 hh.symm
  constructor
  · intro hrow
    apply correct_cyclic_of_true
    apply check_cyclic_ok_of da "lon" (da.data.map fun r => r.headD 0)
    · simp [iselFirst, h0s, h1, (mapHead_mapLast_single da.data hrow).1]
    · simp [iselLast, h0s, h1, (mapHead_mapLast_single da.data hrow).2]
  · intro hmem
    apply correct_cyclic_err
    apply check_cyclic_err1
    simp [iselFirst, h0s, h1, mapHead_none da.data hmem]

/-- A slice with a single longitude sample. -/
def daOne : DataArray :=
  { dim0 := "lat", dim1 := "lon", data := [[5], [6]],
    coords := [("lon", { values := [10], attrs := [] }),
               ("lat", { values := [0, 1], attrs := [] })],
    attrs := [] }

/-- Claim C3 counterexample: daOne has a single longitude sample, yet
the corrector of the time loop returns it unchanged with no error
instead of failing. -/
theorem claim_C3_counterexample :
    (daOne.coordValues "lon").length < 2 ∧ dataWidth daOne.data < 2 ∧
    correct_cyclic daOne "lon" = .ok daOne :=
  ⟨by decide, by decide, by decide⟩

theorem claim_C3_witness : correct_cyclic daOne "lon" = .ok daOne :=
  (claim_C3 daOne (by decide) (by decide)).1 (by decide)

/-- Claim C9: a rendering method name outside the recognized set
(pcolormesh, pcolor, contourf) makes geo_plot raise a configuration
ValueError immediately, and the call never returns successfully, so no
output file is produced for it. -/
theorem claim_C9 (da : DataArray) (axGeo : Bool) (method : String) (vmin0 : Option Frac)
    (h : (PLOTTYPE_ARGS.lookup method).isNone = true) :
    geo_plot da axGeo method vmin0 =
      .error (.valueError ("Do not know how to deal with " ++ method ++ " method")) ∧
    ∀ evs, geo_plot da axGeo method vmin0 ≠ .ok evs := by
  constructor
  · simp [geo_plot, h]
  · intro evs
    simp [geo_plot, h]

theorem claim_C9_witness :
    geo_plot daNC true "scatterplot" none =
      .error (.valueError ("Do not know how to deal with " ++ "scatterplot" ++ " method")) :=
  (claim_C9 daNC true "scatterplot" none (by decide)).1

/-! ## Renaming lemmas (dimension-name coercion) -/

theorem renameStr_self (old new : String) : renameStr old new old = new := by
  simp [renameStr]

theorem renameStr_of_ne (old new s : String) (h : s ≠ old) : renameStr old new s = s := by
  simp [renameStr, h]

theorem renameStr_ne_old (old new s : String) (hne : new ≠ old) :
    renameStr old new s ≠ old := by
  unfold renameStr
  split
  · exact hne
  · assumption

theorem not_mem_map_renameStr (l : List String) (old new : String) (hne : new ≠ old) :
    old ∉ l.map (renameStr old new) := by
  intro hmem
  obtain ⟨x, hx, hfx⟩ := List.mem_map.mp hmem
  exact renameStr_ne_old old new x hne hfx

theorem not_mem_map_renameStr_other (l : List String) (old new x : String)
    (hx : x ∉ l) (hxn : x ≠ new) :
    x ∉ l.map (renameStr old new) := by
  intro hmem
  obtain ⟨y, hy, hfy⟩ := List.mem_map.mp hmem
  unfold renameStr at hfy
  split at hfy
  · exact hxn hfy.symm
  · rw [hfy] at hy
    exact hx hy

theorem rename_dims (ds : Dataset) (old new : String) :
    (ds.rename old new).dims = ds.dims.map (renameStr old new) := rfl

theorem rename_vars_names (ds : Dataset) (old new : String) :
    (ds.rename old new).vars.map Prod.fst =
      (ds.vars.map Prod.fst).map (renameStr old new) := by
  unfold Dataset.rename
  simp only [List.map_map]
  rfl

theorem datasetContains_iff (ds : Dataset) (name : String) :
    datasetContains ds name = true ↔ name ∈ ds.vars.map Prod.fst := by
  simp [datasetContains]

/-- Claim C8: under the coercion of lines 67-75, a dataset whose
longitude and latitude dimensions carry coordinate variables ends up
with dimensions named lon and lat (the old names are gone, from the
per-slice dimension names too), and the whole rest of the run operates
on the coerced dataset. -/
theorem claim_C8 (ds : Dataset)
    (hlon : "longitude" ∈ ds.dims) (hlat : "latitude" ∈ ds.dims)
    (hcov : ∀ d ∈ ds.dims, d ∈ ds.vars.map Prod.fst) :
    ("lon" ∈ (coerceDims ds).dims ∧ "lat" ∈ (coerceDims ds).dims ∧
     "longitude" ∉ (coerceDims ds).dims ∧ "latitude" ∉ (coerceDims ds).dims) ∧
    (∀ p ∈ (coerceDims ds).vars, ∀ s ∈ p.2.slices,
        s.2.dim0 ≠ "longitude" ∧ s.2.dim1 ≠ "longitude" ∧
        s.2.dim0 ≠ "latitude" ∧ s.2.dim1 ≠ "latitude") ∧
    (∀ cfg fs, mainRun cfg ds fs = mainRunOn cfg (coerceDims ds) fs) := by
  have hc1 : datasetContains ds "longitude" = true :=
    (datasetContains_iff _ _).mpr (hcov _ hlon)
  have hc2 : datasetContains (ds.rename "longitude" "lon") "latitude" = true := by
    rw [datasetContains_iff, rename_vars_names]
    have hm := hcov _ hlat
    have := List.mem_map_of_mem (renameStr "longitude" "lon") hm
    rwa [renameStr_of_ne _ _ _ (by decide)] at this
  have hco : coerceDims ds = (ds.rename "longitude" "lon").rename "latitude" "lat" := by
    unfold coerceDims
    rw [hc1]
    simp [hc2]
  refine ⟨?_, ?_, fun _ _ => rfl⟩
  · rw [hco, rename_dims, rename_dims]
    refine ⟨?_, ?_, ?_, ?_⟩
    · have h1 := List.mem_map_of_mem (renameStr "longitude" "lon") hlon
      rw [renameStr_self] at h1
      have h2 := List.mem_map_of_mem (renameStr "latitude" "lat") h1
      rwa [renameStr_of_ne _ _ _ (by decide)] at h2
    · have h1 := List.mem_map_of_mem (renameStr "longitude" "lon") hlat
      rw [renameStr_of_ne _ _ _ (by decide)] at h1
      have h2 := List.mem_map_of_mem (renameStr "latitude" "lat") h1
      rwa [renameStr_self] at h2
    · exact not_mem_map_renameStr_other _ _ _ _
        (not_mem_map_renameStr _ _ _ (by decide)) (by decide)
    · exact not_mem_map_renameStr _ _ _ (by decide)
  · rw [hco]
    intro p hp s hs
    unfold Dataset.rename at hp
    obtain ⟨p1, hp1, rfl⟩ := List.mem_map.mp hp
    simp only at hs
    obtain ⟨s1, hs1, rfl⟩ := List.mem_map.mp hs
    simp only
    obtain ⟨p0, hp0, rfl⟩ := List.mem_map.mp hp1
    simp only at hs1
    obtain ⟨s0, hs0, rfl⟩ := List.mem_map.mp hs1
    simp only
    refine ⟨?_, ?_, ?_, ?_⟩
    all_goals
      unfold renameStr
      split
      · decide
      · split
        · decide
        · assumption

/-- A concrete dataset with longitude and latitude coordinate
variables. -/
def ds8 : Dataset :=
  { dims := ["time", "latitude", "longitude"],
    coords := ["time", "latitude", "longitude"],
    vars :=
      [("time", { dims := ["time"], fullData := [0], slices := [], attrs := [] }),
       ("latitude", { dims := ["latitude"], fullData := [5], slices := [], attrs := [] }),
       ("longitude", { dims := ["longitude"], fullData := [0, 1], slices := [], attrs := [] }),
       ("temp",
        { dims := ["time", "latitude", "longitude"], fullData := [1, 2],
          slices := [((1, 1, 1900, 0, 0),
            { dim0 := "latitude", dim1 := "longitude", data := [[1, 1]],
              coords := [("longitude", { values := [0, 1], attrs := [] }),
                         ("latitude", { values := [5], attrs := [] })],
              attrs := [] })],
          attrs := [] })] }

theorem claim_C8_witness :
    "lon" ∈ (coerceDims ds8).dims ∧ "lat" ∈ (coerceDims ds8).dims ∧
    "longitude" ∉ (coerceDims ds8).dims ∧ "latitude" ∉ (coerceDims ds8).dims :=
  (claim_C8 ds8 (by decide) (by decide) (by decide)).1

/-! ## Colorfile resolution lemmas -/

theorem dictKeys_map_upd (m : ColorData) (k : String) (x : CmapParams) :
    dictKeys (m.map fun p => if p.1 = k then (k, x) else p) = dictKeys m := by
  induction m with
  | nil => rfl
  | cons p t ih =>
    by_cases hp : p.1 = k
    · simp only [dictKeys, List.map_cons] at *
      rw [if_pos hp]
      simp [hp, ih]
    · simp only [dictKeys, List.map_cons] at *
      rw [if_neg hp]
      simp [ih]

theorem dictKeys_dictSet (m : ColorData) (k : String) (x : CmapParams) :
    dictKeys (dictSet m k x) =
      if k ∈ dictKeys m then dictKeys m else dictKeys m ++ [k] := by
  unfold dictSet
  split <;> rename_i h
  · exact dictKeys_map_upd m k x
  · simp [dictKeys]

theorem fallbackLoop_keys_sub (vars : List (String × VarData)) (cd : ColorData)
    (j : String) (h : j ∈ dictKeys cd) :
    j ∈ dictKeys (fallbackLoop cd vars).1 := by
  induction vars generalizing cd with
  | nil => simpa [fallbackLoop]
  | cons p t ih =>
    obtain ⟨v, vd⟩ := p
    simp only [fallbackLoop]
    split
    · exact ih cd h
    · rename_i hv
      apply ih
      rw [dictKeys_dictSet, if_neg hv]
      exact List.mem_append_left _ h

theorem fallbackLoop_covers (vars : List (String × VarData)) (cd : ColorData)
    (j : String) (h : j ∈ vars.map Prod.fst) :
    j ∈ dictKeys (fallbackLoop cd vars).1 := by
  induction vars generalizing cd with
  | nil => simp at h
  | cons p t ih =>
    obtain ⟨v, vd⟩ := p
    simp only [List.map_cons, List.mem_cons] at h
    simp only [fallbackLoop]
    rcases h with rfl | hj
    · split
      · rename_i hv
        exact fallbackLoop_keys_sub t cd _ hv
      · rename_i hv
        apply fallbackLoop_keys_sub
        rw [dictKeys_dictSet, if_neg hv]
        exact List.mem_append_right _ (by simp)
    · split
      · exact ih cd hj
      · exact ih _ hj

theorem fallbackLoop_warn_not_mem (vars : List (String × VarData)) (cd : ColorData)
    (X : String) (h : X ∉ vars.map Prod.fst) :
    Event.warnMissingColor X ∉ (fallbackLoop cd vars).2 := by
  induction vars generalizing cd with
  | nil => simp [fallbackLoop]
  | cons p t ih =>
    obtain ⟨v, vd⟩ := p
    simp only [List.map_cons, List.mem_cons] at h
    push_neg at h
    obtain ⟨hxv, hxt⟩ := h
    simp only [fallbackLoop]
    split
    · exact ih cd hxt
    · intro hmem
      rcases List.mem_cons.mp hmem with heq | hmem2
      · exact hxv (Event.warnMissingColor.inj heq)
      · exact ih _ hxt hmem2

theorem fallbackLoop_warn_once (vars : List (String × VarData)) (cd : ColorData)
    (X : String) (hmem : X ∈ vars.map Prod.fst)
    (hnd : (vars.map Prod.fst).Nodup) (habs : X ∉ dictKeys cd) :
    (fallbackLoop cd vars).2.count (Event.warnMissingColor X) = 1 := by
  induction vars generalizing cd with
  | nil => simp at hmem
  | cons p t ih =>
    obtain ⟨v, vd⟩ := p
    simp only [List.map_cons, List.mem_cons] at hmem
    rw [List.map_cons, List.nodup_cons] at hnd
    rcases hmem with rfl | hX
    · simp only [fallbackLoop]
      split
      · rename_i hv
        exact absurd hv habs
      · rename_i hv
        have hrest := fallbackLoop_warn_not_mem t
          (dictSet cd X (determine_cmap_params vd.fullData none false none)) X hnd.1
        simp [List.count_cons, List.count_eq_zero.mpr hrest]
    · have hvX : v ≠ X := by
        rintro rfl
        exact hnd.1 hX
      simp only [fallbackLoop]
      split
      · exact ih cd hX hnd.2 habs
      · rename_i hv
        have habs2 : X ∉ dictKeys (dictSet cd v
            (determine_cmap_params vd.fullData none false none)) := by
          rw [dictKeys_dictSet, if_neg hv]
          intro hmem2
          rcases List.mem_append.mp hmem2 with hh | hh
          · exact habs hh
          · simp at hh
            exact hvX hh.symm
        have hvX2 : X ≠ v := fun hh => hvX hh.symm
        simpa [List.count_cons, hvX, hvX2] using ih _ hX hnd.2 habs2

/-- Claim C4: with a loaded cache missing a non-dimension variable X,
the resolution step succeeds, the fallback loop emits exactly one
missing-color warning for X, and the resulting in-memory mapping
contains X, so the run proceeds. -/
theorem claim_C4 (ds : Dataset) (cfg : Config) (fs : FileSystem) (cf : String)
    (loaded : ColorData) (X : String)
    (hcf : cfg.colorfile = some cf) (hfs : fs.lookup cf = some loaded)
    (hX : X ∈ (nonDimVars ds).map Prod.fst)
    (hmiss : X ∉ dictKeys loaded)
    (hnd : ((nonDimVars ds).map Prod.fst).Nodup) :
    ∃ cd evs, resolveColors ds cfg fs = .ok (cd, evs) ∧
      X ∈ dictKeys cd ∧
      evs.count (Event.warnMissingColor X) = 1 := by
  refine ⟨(fallbackLoop loaded (nonDimVars ds)).1,
          (fallbackLoop loaded (nonDimVars ds)).2, ?_, ?_, ?_⟩
  · simp [resolveColors, hcf, hfs]
  · exact fallbackLoop_covers _ _ _ hX
  · exact fallbackLoop_warn_once _ _ _ hX hnd hmiss

/-- A concrete dataset with one non-dimension variable X. -/
def dsX : Dataset :=
  { dims := ["time", "lat", "lon"], coords := [],
    vars := [("X", { dims := ["time", "lat", "lon"],
                     fullData := [1, 2, 3, 4, 1000], slices := [], attrs := [] })] }

/-- A run configuration requesting the colorfile f.cf. -/
def cfgX : Config := { nc_file := "f.nc", colorfile := some "f.cf", sample := false }

/-- A file system holding an empty colorfile f.cf. -/
def fsX : FileSystem := [("f.cf", [])]

theorem claim_C4_witness :
    ∃ cd evs, resolveColors dsX cfgX fsX = .ok (cd, evs) ∧
      "X" ∈ dictKeys cd ∧
      evs.count (Event.warnMissingColor "X") = 1 :=
  claim_C4 dsX cfgX fsX "f.cf" [] "X" rfl (by decide) (by decide) (by decide) (by decide)

/-! ## Run event lemmas -/

theorem fallbackLoop_events_warn (vars : List (String × VarData)) (cd : ColorData) :
    ∀ e ∈ (fallbackLoop cd vars).2, isWarnB e = true := by
  induction vars generalizing cd with
  | nil => simp [fallbackLoop]
  | cons p t ih =>
    obtain ⟨v, vd⟩ := p
    simp only [fallbackLoop]
    split
    · exact ih cd
    · intro e he
      rcases List.mem_cons.mp he with rfl | he2
      · rfl
      · exact ih _ e he2

theorem resolveColors_events_warn (ds : Dataset) (cfg : Config) (fs : FileSystem)
    (cd : ColorData) (evs : List Event)
    (h : resolveColors ds cfg fs = .ok (cd, evs)) :
    ∀ e ∈ evs, isWarnB e = true := by
  unfold resolveColors at h
  split at h
  · split at h
    · simp at h
    · rename_i loaded hl
      have hev : (fallbackLoop loaded (nonDimVars ds)).2 = evs :=
        congrArg Prod.snd (Except.ok.inj h)
      intro e he
      rw [← hev] at he
      exact fallbackLoop_events_warn _ _ e he
  · have hev : ([] : List Event) = evs :=
      congrArg Prod.snd (Except.ok.inj h)
    intro e he
    rw [← hev] at he
    simp at he

theorem geo_plot_ok_events (da : DataArray) (axGeo : Bool) (method : String)
    (vmin0 : Option Frac) (evs : List Event)
    (h : geo_plot da axGeo method vmin0 = .ok evs) :
    ∀ e ∈ evs, isWarnB e = true := by
  unfold geo_plot at h
  split at h
  · simp at h
  · split at h
    · simp at h
    · have hev := Except.ok.inj h
      intro e he
      rw [← hev] at he
      split at he
      · rw [List.mem_singleton.mp he]
        rfl
      · simp at he

theorem renderSlice_ok_events (v : String) (params : CmapParams)
    (s : Timestamp × DataArray) (evs : List Event)
    (h : renderSlice v params s = .ok evs) :
    evs.filter isSaveImageB = [Event.saveImage (v ++ "_" ++ fn_ts_str s.1 ++ ".png")] ∧
    evs.filter isSaveCacheB = [] := by
  unfold renderSlice at h
  split at h
  · simp at h
  · split at h
    · simp at h
    · rename_i warns hgp
      have hev := Except.ok.inj h
      have hw := geo_plot_ok_events _ _ _ _ _ hgp
      have h1 : warns.filter isSaveImageB = [] := by
        apply List.filter_eq_nil.mpr
        intro e he
        have hwe := hw e he
        cases e <;> simp_all [isWarnB, isSaveImageB]
      have h2 : warns.filter isSaveCacheB = [] := by
        apply List.filter_eq_nil.mpr
        intro e he
        have hwe := hw e he
        cases e <;> simp_all [isWarnB, isSaveCacheB]
      rw [← hev]
      constructor
      · rw [List.filter_append, h1]
        rfl
      · rw [List.filter_append, h2]
        rfl

theorem renderSlices_ok_events (v : String) (params : CmapParams)
    (slices : List (Timestamp × DataArray)) (evs : List Event)
    (h : renderSlices v params slices = .ok evs) :
    evs.filter isSaveImageB =
      slices.map (fun s => Event.saveImage (v ++ "_" ++ fn_ts_str s.1 ++ ".png")) ∧
    evs.filter isSaveCacheB = [] := by
  induction slices generalizing evs with
  | nil =>
    unfold renderSlices at h
    have hev := Except.ok.inj h
    rw [← hev]
    exact ⟨rfl, rfl⟩
  | cons s t ih =>
    unfold renderSlices at h
    split at h
    · simp at h
    · rename_i evs1 h1
      split at h
      · simp at h
      · rename_i rest2 h2
        have hev := Except.ok.inj h
        have hr1 := renderSlice_ok_events _ _ _ _ h1
        have hr2 := ih _ h2
        rw [← hev]
        constructor
        · rw [List.filter_append, hr1.1, hr2.1]
          rfl
        · rw [List.filter_append, hr1.2, hr2.2]
          rfl

/-- Placeholder slice for headD. -/
def dummySlice : Timestamp × DataArray :=
  ((0, 0, 0, 0, 0), { dim0 := "", dim1 := "", data := [], coords := [], attrs := [] })

theorem plotVar_sample_events (v : String) (vd : VarData) (params : CmapParams)
    (s0 : Timestamp × DataArray) (rest : List (Timestamp × DataArray))
    (evs : List Event)
    (hs : vd.slices = s0 :: rest)
    (h : plotVar v vd params true = .ok evs) :
    evs.filter isSaveImageB = [Event.saveImage (v ++ "_" ++ fn_ts_str s0.1 ++ ".png")] ∧
    evs.filter isSaveCacheB = [] := by
  unfold plotVar at h
  rw [hs] at h
  simp only [if_pos rfl, List.take_succ_cons, List.take_zero] at h
  have hr := renderSlices_ok_events _ _ _ _ h
  simpa using hr

theorem plotVar_no_save (v : String) (vd : VarData) (params : CmapParams)
    (sample : Bool) (evs : List Event)
    (h : plotVar v vd params sample = .ok evs) :
    evs.filter isSaveCacheB = [] := by
  unfold plotVar at h
  exact (renderSlices_ok_events _ _ _ _ h).2

theorem plotVars_no_save (cd : ColorData) (sample : Bool)
    (vars : List (String × VarData)) (evs : List Event)
    (h : plotVars cd sample vars = .ok evs) :
    evs.filter isSaveCacheB = [] := by
  induction vars generalizing evs with
  | nil =>
    unfold plotVars at h
    have hev := Except.ok.inj h
    rw [← hev]
    rfl
  | cons p t ih =>
    obtain ⟨v, vd⟩ := p
    unfold plotVars at h
    split at h
    · simp at h
    · rename_i params hp
      split at h
      · simp at h
      · rename_i evs1 h1
        split at h
        · simp at h
        · rename_i rest2 h2
          have hev := Except.ok.inj h
          rw [← hev, List.filter_append, plotVar_no_save _ _ _ _ _ h1, ih _ h2]
          rfl

theorem plotVars_sample_events (cd : ColorData) (vars : List (String × VarData))
    (evs : List Event)
    (hne : ∀ p ∈ vars, p.2.slices ≠ [])
    (h : plotVars cd true vars = .ok evs) :
    evs.filter isSaveImageB = vars.map (fun p =>
      Event.saveImage (p.1 ++ "_" ++ fn_ts_str ((p.2.slices.headD dummySlice).1) ++ ".png")) := by
  induction vars generalizing evs with
  | nil =>
    unfold plotVars at h
    have hev := Except.ok.inj h
    rw [← hev]
    rfl
  | cons p t ih =>
    obtain ⟨v, vd⟩ := p
    obtain ⟨s0, rest, hs⟩ : ∃ s0 rest, vd.slices = s0 :: rest := by
      have hvd := hne (v, vd) (by simp)
      cases hsl : vd.slices with
      | nil => exact absurd hsl hvd
      | cons a b => exact ⟨a, b, rfl⟩
    unfold plotVars at h
    split at h
    · simp at h
    · rename_i params hp
      split at h
      · simp at h
      · rename_i evs1 h1
        split at h
        · simp at h
        · rename_i rest2 h2
          have hev := Except.ok.inj h
          have hr1 := plotVar_sample_events _ _ _ _ _ _ hs h1
          have hr2 := ih rest2 (fun q hq => hne q (List.mem_cons_of_mem _ hq)) h2
          rw [← hev, List.filter_append, hr1.1, hr2]
          simp [hs]

theorem mainRunOn_ok_events (cfg : Config) (ds : Dataset) (fs : FileSystem)
    (h : (mainRunOn cfg ds fs).exitCode = 0) :
    ∃ cd evs1 evs2,
      resolveColors ds cfg fs = .ok (cd, evs1) ∧
      plotAll ds cd cfg.sample = .ok evs2 ∧
      (mainRunOn cfg ds fs).events =
        evs1 ++ [Event.saveCache (splitextBase cfg.nc_file ++ ".cf") cd] ++ evs2 := by
  unfold mainRunOn at *
  split at h
  · simp at h
  · rename_i cd evs1 hres
    split at h
    · simp at h
    · rename_i evs2 hplot
      exact ⟨cd, evs1, evs2, hres, hplot, rfl⟩

/-- Claim C6: an explicitly requested colorfile that cannot be opened
makes the run exit with status 1, a diagnostic naming the file, and no
events (nothing is silently ignored). -/
theorem claim_C6 (cfg : Config) (ds : Dataset) (fs : FileSystem) (cf : String)
    (hcf : cfg.colorfile = some cf) (hmiss : fs.lookup cf = none) :
    (mainRun cfg ds fs).exitCode = 1 ∧
    (mainRun cfg ds fs).diagnostic = some ("Could not open colorfile " ++ cf) ∧
    (mainRun cfg ds fs).events = [] := by
  have hres : resolveColors (coerceDims ds) cfg fs =
      .error ("Could not open colorfile " ++ cf) := by
    simp [resolveColors, hcf, hmiss]
  unfold mainRun mainRunOn
  rw [hres]
  exact ⟨rfl, rfl, rfl⟩

theorem claim_C6_witness :
    (mainRun cfgX dsX []).exitCode = 1 ∧
    (mainRun cfgX dsX []).diagnostic = some ("Could not open colorfile " ++ "f.cf") ∧
    (mainRun cfgX dsX []).events = [] :=
  claim_C6 cfgX dsX [] "f.cf" rfl rfl

/-- Claim C7: in every successful run with the sample flag, the image
writes are exactly one per plottable variable, named with the variable
and the first timestamp found for that variable
(variable_MMDDYYYY_HHMMZ.png). -/
theorem claim_C7 (cfg : Config) (ds : Dataset) (fs : FileSystem)
    (hs : cfg.sample = true)
    (hne : ∀ p ∈ plottableVars (coerceDims ds), p.2.slices ≠ [])
    (hok : (mainRun cfg ds fs).exitCode = 0) :
    (mainRun cfg ds fs).events.filter isSaveImageB =
      (plottableVars (coerceDims ds)).map (fun p =>
        Event.saveImage (p.1 ++ "_" ++ fn_ts_str ((p.2.slices.headD dummySlice).1) ++ ".png")) := by
  unfold mainRun at *
  obtain ⟨cd, evs1, evs2, hres, hplot, hev⟩ := mainRunOn_ok_events _ _ _ hok
  rw [hev, List.filter_append, List.filter_append]
  have h1 : evs1.filter isSaveImageB = [] := by
    apply List.filter_eq_nil.mpr
    intro e he
    have hwe := resolveColors_events_warn _ _ _ _ _ hres e he
    cases e <;> simp_all [isWarnB, isSaveImageB]
  rw [hs] at hplot
  unfold plotAll at hplot
  have h2 := plotVars_sample_events cd (plottableVars (coerceDims ds)) evs2 hne hplot
  rw [h1, h2]
  rfl

/-- The already-cyclic slice of the concrete run dataset. -/
def daRun : DataArray :=
  { dim0 := "lat", dim1 := "lon", data := [[1, 1]],
    coords := [("lon", { values := [0, 1], attrs := [] }),
               ("lat", { values := [5], attrs := [] })],
    attrs := [] }

/-- A concrete dataset with one plottable variable and one timestep. -/
def dsRun : Dataset :=
  { dims := ["time", "lat", "lon"], coords := [],
    vars := [("temp", { dims := ["time", "lat", "lon"], fullData := [1, 2],
                        slices := [((1, 1, 1900, 0, 0), daRun)], attrs := [] })] }

/-- A sample-flag configuration. -/
def cfgSample : Config := { nc_file := "f.nc", colorfile := none, sample := true }

theorem claim_C7_witness :
    (mainRun cfgSample dsRun []).events.filter isSaveImageB =
      (plottableVars (coerceDims dsRun)).map (fun p =>
        Event.saveImage (p.1 ++ "_" ++ fn_ts_str ((p.2.slices.headD dummySlice).1) ++ ".png")) :=
  claim_C7 cfgSample dsRun [] rfl (by decide) (by decide)

/-- Claim C5 (amended): every run that passes colormap resolution -
whether or not a cache was loaded - performs exactly one colorfile
save, to the input base name with the .cf extension, with the resolved
mapping as contents; the save happens immediately after resolution and
before the plotting loop, not at the end of the run. -/
theorem claim_C5 (cfg : Config) (ds : Dataset) (fs : FileSystem)
    (cd : ColorData) (evs1 : List Event)
    (h : resolveColors (coerceDims ds) cfg fs = .ok (cd, evs1)) :
    ∃ rest, (mainRun cfg ds fs).events =
        evs1 ++ Event.saveCache (splitextBase cfg.nc_file ++ ".cf") cd :: rest ∧
      (mainRun cfg ds fs).events.filter isSaveCacheB =
        [Event.saveCache (splitextBase cfg.nc_file ++ ".cf") cd] := by
  have h1 : evs1.filter isSaveCacheB = [] := by
    apply List.filter_eq_nil.mpr
    intro e he
    have hwe := resolveColors_events_warn _ _ _ _ _ h e he
    cases e <;> simp_all [isWarnB, isSaveCacheB]
  unfold mainRun mainRunOn
  split
  · rename_i msg hres
    rw [h] at hres
    exact absurd hres (by simp)
  · rename_i cd2 evs2 hres
    rw [h] at hres
    obtain ⟨rfl, rfl⟩ := Prod.mk.inj (Except.ok.inj hres)
    split
    · rename_i e hplot
      refine ⟨[], by simp, ?_⟩
      simp [List.filter_append, h1, isSaveCacheB]
    · rename_i evs2p hplot
      refine ⟨evs2p, by simp, ?_⟩
      have h2 : evs2p.filter isSaveCacheB = [] := by
        unfold plotAll at hplot
        exact plotVars_no_save _ _ _ _ hplot
      simp [List.filter_append, h1, h2, isSaveCacheB]

/-- A plain run configuration (no colorfile, all timesteps). -/
def cfgCE : Config := { nc_file := "f.nc", colorfile := none, sample := false }

/-- The batch-inferred mapping of the concrete run. -/
def cdRun : ColorData := batchLoop [] (nonDimVars (coerceDims dsRun))

theorem claim_C5_witness :
    ∃ rest, (mainRun cfgCE dsRun []).events =
        [] ++ Event.saveCache (splitextBase cfgCE.nc_file ++ ".cf") cdRun :: rest ∧
      (mainRun cfgCE dsRun []).events.filter isSaveCacheB =
        [Event.saveCache (splitextBase cfgCE.nc_file ++ ".cf") cdRun] :=
  claim_C5 cfgCE dsRun [] cdRun [] rfl

/-- Claim C5 counterexample: a successful concrete run whose colorfile
save is followed by an image write - the save is not performed at the
end of the run. -/
theorem claim_C5_counterexample :
    (mainRun cfgCE dsRun []).exitCode = 0 ∧
    ((mainRun cfgCE dsRun []).events.filter isSaveCacheB).length = 1 ∧
    ((mainRun cfgCE dsRun []).events.getLast?.map isSaveCacheB) = some false :=
  ⟨by decide, by decide, by decide⟩

/-- The concrete data for the inference comparison of the two call
sites. -/
def c10data : List Frac := [1, 2, 3, 4, 1000]

/-- A run configuration with no colorfile (batch inference). -/
def cfgBatch : Config := { nc_file := "f.nc", colorfile := none, sample := false }

/-- Claim C10: resolving the variable X through the cache-miss
fallback calls the inference with the library defaults, while batch
mode passes levels=21, robust and extend=both; on the data of X the
two paths give different bounds, different levels and different extend
behaviour. -/
theorem claim_C10 :
    resolveColors dsX cfgX fsX =
      .ok ([("X", determine_cmap_params c10data none false none)],
           [Event.warnMissingColor "X"]) ∧
    resolveColors dsX cfgBatch fsX =
      .ok ([("X", determine_cmap_params c10data (some 21) true (some "both"))], []) ∧
    (determine_cmap_params c10data none false none).vmin ≠
      (determine_cmap_params c10data (some 21) true (some "both")).vmin ∧
    (determine_cmap_params c10data none false none).levels ≠
      (determine_cmap_params c10data (some 21) true (some "both")).levels ∧
    (determine_cmap_params c10data none false none).extendArg ≠
      (determine_cmap_params c10data (some 21) true (some "both")).extendArg :=
  ⟨by decide, by decide, by decide, by decide, by decide⟩

end PlotNC
